import Mathlib

/-!
Verification development for the SequentialBayesianLearning repository.

The three Python source files are shallowly embedded as Lean definitions:
* `SeqGen` models `seq_gen.py` (the regime-switching sequence sampler),
* `SBLCatDir` models `sbl_cat_dir.py` (the Categorical-Dirichlet learner),
* `SBLGRW` models `sbl_grw.py` (the grid filter for the Gaussian random walk).

Floating point numbers are modelled by `ℚ` (exact arithmetic).  The pseudo
random draws of `np.random.multinomial(..).argmax()` are modelled by explicit
draw streams handed to the sampler, so that every function is deterministic
and executable.  External library functions whose numeric values never decide
a claim (`scipy.stats.norm.pdf`, the logistic emission curve) enter as
function parameters; the surrounding index and control-flow structure is
embedded faithfully from the source.
-/

namespace SeqGen

/-- Row `i` of the regime-0 transition matrix `B_0` built by
`seq_gen.construct_transitions`:
`[p_i - c/2 - r/2, 1 - p_i - c/2 - r/2, c, r]` where `p_i` is
`prob_obs_change[i]`, `c` is `prob_catch` and `r` is `prob_regime_change`. -/
def B0row (pObsChange : ℕ → ℚ) (pCatch pRegimeChange : ℚ) (i : ℕ) : Fin 4 → ℚ :=
  ![pObsChange i - pCatch / 2 - pRegimeChange / 2,
    1 - pObsChange i - pCatch / 2 - pRegimeChange / 2,
    pCatch, pRegimeChange]

/-- Row `i` of the regime-1 transition matrix `B_1`: same formula with the
probability taken at offset `i + rows` (`rows` is `B_0.shape[0]`). -/
def B1row (pObsChange : ℕ → ℚ) (pCatch pRegimeChange : ℚ) (rows i : ℕ) : Fin 4 → ℚ :=
  B0row pObsChange pCatch pRegimeChange (i + rows)

/-- Sum of one transition row (four outcome columns: obs 0, obs 1, catch,
regime switch). -/
def rowSum (r : Fin 4 → ℚ) : ℚ :=
  r 0 + r 1 + r 2 + r 3

/-- The row-stochasticity check of `construct_transitions`: the code raises
`ValueError("Matrices are not row stochastic")` as soon as some row of `B_0`
or `B_1` does not sum to `1` exactly (`np.sum(..) != 1`).  `true` means the
check passes. -/
def rowStochasticCheck (B0 B1 : ℕ → Fin 4 → ℚ) (rows : ℕ) : Bool :=
  decide (∀ i < rows, rowSum (B0 i) = 1 ∧ rowSum (B1 i) = 1)

end SeqGen

namespace SBLCatDir

/-- `self.no_obs = np.unique(seq).shape[0]`: the number of distinct
observation values in the input sequence. -/
def noObs (seq : List ℕ) : ℕ :=
  seq.dedup.length

/-- Entry `stim_ind[k, i]` of the per-category one-hot table built in
`SBL_Cat_Dir.__init__` (`stim_ind[t, sequence[t]] = 1`).  As a function it is
the indicator of `sequence[k] = i`; the Python array only has columns
`i < no_obs` and building it crashes when some `sequence[k] ≥ no_obs`
(see `initSBLCatDir`). -/
def stimInd (seq : List ℕ) (k i : ℕ) : ℚ :=
  if seq.getD k 0 = i then 1 else 0

/-- Entry `repetition[k]` built in `__init__`: `repetition[0] = 0`, and for
`k ≥ 1` it is `1` exactly when `sequence[k] == sequence[k-1]`. -/
def repetition (seq : List ℕ) (k : ℕ) : ℚ :=
  if k ≠ 0 ∧ seq.getD k 0 = seq.getD (k - 1) 0 then 1 else 0

/-- Entry `transitions[k, i]` built in `__init__`: row `0` is all zeros, and
for `k ≥ 1` the loop writes only columns `0`, `1` and `2`
(`transitions[t, i] = (sequence[t-1] == i)` for `i ∈ {0,1,2}`); any further
columns stay `0`. -/
def transitions (seq : List ℕ) (k i : ℕ) : ℚ :=
  if k ≠ 0 ∧ i ≤ 2 ∧ seq.getD (k - 1) 0 = i then 1 else 0

/-- The discounted dot product used by `update_posterior`:
`np.dot(exp_weighting, v[:t+1])` where `exp_weighting` holds the last `t+1`
entries of `exp_forgetting`, so the value at time `k ≤ t` is weighted by
`w (t - k)`.  In the source `w d = exp(-tau*d)`; the weight profile `w`
enters as a parameter and `tau = 0` corresponds to `w = fun _ => 1`. -/
def dotW (w : ℕ → ℚ) (t : ℕ) (v : ℕ → ℚ) : ℚ :=
  ∑ k ∈ Finset.range (t + 1), w (t - k) * v k

/-- `update_posterior` for `model_type = "SP"`: a full recompute
`alphas[i] = 1 + dot(exp_weighting, stim_ind[:t+1, i])`. -/
def updateSP (seq : List ℕ) (w : ℕ → ℚ) (t : ℕ) (i : ℕ) : ℚ :=
  1 + dotW w t (fun k => stimInd seq k i)

/-- `update_posterior` for `model_type = "AP"`.  At `t = 0` the code prints a
warning ("Can't update posterior with only one observation - need two!") and
resets `alphas` to `[1, 1]`; the Boolean component records whether that
warning was emitted.  Otherwise `alphas[0] = 1 + dot(w, repetition[:t+1])`
and `alphas[1] = 1 + dot(w, 1 - repetition[:t+1])`. -/
def updateAP (seq : List ℕ) (w : ℕ → ℚ) (t : ℕ) : (Fin 2 → ℚ) × Bool :=
  if t = 0 then (fun _ => 1, true)
  else
    (![1 + dotW w t (repetition seq),
       1 + dotW w t (fun k => 1 - repetition seq k)], false)

/-- `update_posterior` for `model_type = "TP"`.  At `t = 0` the warning is
emitted and `alphas` is reset to the all-ones matrix; otherwise
`alphas[i, j] = 1 + dot(w, stim_ind[:t+1, j] * transitions[:t+1, i])`. -/
def updateTP (seq : List ℕ) (w : ℕ → ℚ) (t : ℕ) : (ℕ → ℕ → ℚ) × Bool :=
  if t = 0 then (fun _ _ => 1, true)
  else
    (fun i j => 1 + dotW w t (fun k => stimInd seq k j * transitions seq k i), false)

/-- `posterior_predictive` for a vector-shaped `alphas` of length `m`
(`SP` model): `[alpha / alphas.sum() for alpha in alphas]`. -/
def ppVec (m : ℕ) (a : ℕ → ℚ) (i : ℕ) : ℚ :=
  a i / ∑ k ∈ Finset.range m, a k

/-- `posterior_predictive` for the length-2 `alphas` of the `AP` model. -/
def ppPair (a : Fin 2 → ℚ) (i : Fin 2) : ℚ :=
  a i / (a 0 + a 1)

/-- `posterior_predictive` for the matrix-shaped `alphas` of the `TP` model:
`alphas.sum(axis=0)` is the vector of column sums, and each row of `alphas`
is divided elementwise by it, so entry `(i, j)` is `alphas[i,j]` over the sum
of column `j`. -/
def ppMat (m : ℕ) (a : ℕ → ℕ → ℚ) (i j : ℕ) : ℚ :=
  a i j / ∑ k ∈ Finset.range m, a k j

/-- The realized outcome index `ind = int(self.repetition[self.t])` used by
`compute_surprisal` for the `AP` model: `1` when the step is a repeat
(`sequence[t] == sequence[t-1]`, `t ≥ 1`), else `0`. -/
def apInd (seq : List ℕ) (t : ℕ) : Fin 2 :=
  if t ≠ 0 ∧ seq.getD t 0 = seq.getD (t - 1) 0 then 1 else 0

/-- One row of the results table produced by `compute_surprisal` for the `AP`
model.  `psArg` is the probability whose negative logarithm the code records
as predictive surprisal (`predictive_surprisal` returns
`-log(posterior_predictive(alphas)[ind])`); the Dirichlet-KL based
`BS`/`CS` columns (external `kl_dir`) are not modelled. -/
structure APRecord where
  t : ℕ
  alphas : Fin 2 → ℚ
  warned : Bool
  psArg : ℚ
  deriving DecidableEq

/-- The `compute_surprisal` loop of `SBL_Cat_Dir` for the `AP` model: for
each `t < maxT` it recomputes the posterior (`update_posterior` is a full
recompute, so the previous state only feeds the unmodelled KL columns),
determines the realized outcome index and records the probability passed to
the logarithm. -/
def computeAP (seq : List ℕ) (w : ℕ → ℚ) (maxT : ℕ) : List APRecord :=
  (List.range maxT).map (fun t =>
    let u := updateAP seq w t
    { t := t, alphas := u.1, warned := u.2, psArg := ppPair u.1 (apInd seq t) })

/-- Plain (unweighted) running count of occurrences of category `i` among
timesteps `0 .. t` — the spec's indicator count for the `SP` model. -/
def specStimCount (seq : List ℕ) (i t : ℕ) : ℕ :=
  ((Finset.range (t + 1)).filter (fun k => seq.getD k 0 = i)).card

/-- Plain running count of repeats (`sequence[k] = sequence[k-1]`, `k ≥ 1`)
among timesteps `0 .. t` — the spec's repeat-indicator count. -/
def specRepeatCount (seq : List ℕ) (t : ℕ) : ℕ :=
  ((Finset.range (t + 1)).filter
    (fun k => k ≠ 0 ∧ seq.getD k 0 = seq.getD (k - 1) 0)).card

/-- Plain running count of alternations (`sequence[k] ≠ sequence[k-1]`,
`k ≥ 1`) among timesteps `0 .. t` — the spec's alternation-indicator count;
the indicator is undefined (counted as nothing) at `k = 0`. -/
def specAltCount (seq : List ℕ) (t : ℕ) : ℕ :=
  ((Finset.range (t + 1)).filter
    (fun k => k ≠ 0 ∧ seq.getD k 0 ≠ seq.getD (k - 1) 0)).card

/-- Plain running count of `i → j` transitions among timesteps `0 .. t` —
the spec's from-to-indicator count for the `TP` model. -/
def specTransCount (seq : List ℕ) (i j t : ℕ) : ℕ :=
  ((Finset.range (t + 1)).filter
    (fun k => k ≠ 0 ∧ seq.getD (k - 1) 0 = i ∧ seq.getD k 0 = j)).card

/-- Failure modes of the `SBL_Cat_Dir` constructor: a numpy `IndexError`
while building `stim_ind`, an `IndexError` while building `transitions`, or
the raise on an unknown `model_type` string. -/
inductive InitError where
  | stimIndex
  | transIndex
  | badModelType
  deriving DecidableEq

/-- The `stim_ind` construction loop: for every `t`, the write
`stim_ind[t, sequence[t]] = 1` requires `sequence[t] < no_obs` (the table has
`no_obs` columns); the first out-of-range value raises. -/
def stimLoop (m : ℕ) : List ℕ → Except InitError Unit
  | [] => .ok ()
  | x :: xs => if x < m then stimLoop m xs else .error .stimIndex

/-- One iteration of the `transitions` construction loop: it writes columns
`0`, `1` and `2` in this order, so it raises as soon as the table has fewer
than three columns. -/
def transWrite (m : ℕ) : Except InitError Unit :=
  if 0 < m then
    if 1 < m then
      if 2 < m then .ok () else .error .transIndex
    else .error .transIndex
  else .error .transIndex

/-- The `transitions` construction loop over `t ∈ range(1, T)`, i.e. `T - 1`
iterations. -/
def transLoop (m : ℕ) : ℕ → Except InitError Unit
  | 0 => .ok ()
  | n + 1 =>
    match transWrite m with
    | .ok _ => transLoop m n
    | .error e => .error e

/-- The `SBL_Cat_Dir.__init__` indexing behaviour: build `stim_ind` (each
`sequence[t]` must be a valid column), build `repetition` (never raises),
build `transitions` (columns `0,1,2` must exist once the loop body runs, i.e.
when `T ≥ 2`), then initialize `alphas` according to the model-type string
(anything except `"SP"`, `"AP"`, `"TP"` raises).  On success the number of
distinct observation values is returned. -/
def initSBLCatDir (seq : List ℕ) (modelType : String) : Except InitError ℕ :=
  match stimLoop (noObs seq) seq with
  | .error e => .error e
  | .ok _ =>
    match transLoop (noObs seq) (seq.length - 1) with
    | .error e => .error e
    | .ok _ =>
      if modelType = "SP" ∨ modelType = "AP" ∨ modelType = "TP" then .ok (noObs seq)
      else .error .badModelType

end SBLCatDir

namespace SBLGRW

/-- `np.linspace a b n` evaluated at position `k`. -/
def linspace (a b : ℚ) (n k : ℕ) : ℚ :=
  a + (b - a) * k / ((n : ℚ) - 1)

/-- Entry `k` of `i_ax = np.repeat(np.linspace(-5, 5, 70), 70)` from
`SBL_GRW.update_posterior`: the grid is hardcoded to `(-5, 5, 70)` and each
grid point is repeated 70 times, so entry `k` is grid point `k / 70`. -/
def iAx (k : ℕ) : ℚ :=
  linspace (-5) 5 70 (k / 70)

/-- Entry `k` of `j_ax = np.tile(np.linspace(-5, 5, 70), 70)`: the whole
hardcoded grid is tiled, so entry `k` is grid point `k % 70`. -/
def jAx (k : ℕ) : ℚ :=
  linspace (-5) 5 70 (k % 70)

/-- Entry `i` of `bernoulli_lookup = binom.pmf(1, 1, 1/(1+np.exp(-i_ax)))`:
the logistic emission curve (abstracted as the parameter `logistic`)
evaluated elementwise on the 4900-entry `i_ax`, indexed at raw position `i`. -/
def bernoulliLookup (logistic : ℚ → ℚ) (i : ℕ) : ℚ :=
  logistic (iAx i)

/-- Entry `(i, j)` of
`normal_lookup = norm.pdf(i_ax, j_ax, sigma).reshape((s_res, s_res))` (the
Gaussian density abstracted as the parameter `pdf`): position `(i, j)` of the
reshaped array is flat position `s_res * i + j`.  The reshape itself only
succeeds when `s_res * s_res = 4900`. -/
def normalLookup (pdf : ℚ → ℚ → ℚ → ℚ) (sigma : ℚ) (sRes i j : ℕ) : ℚ :=
  pdf (iAx (sRes * i + j)) (jAx (sRes * i + j)) sigma

/-- The configured latent grid `self.s_space = np.linspace(s_min, s_max,
s_res)` from `SBL_GRW.__init__` — the grid the spec says the lookups are
built on. -/
def sSpace (sMin sMax : ℚ) (sRes k : ℕ) : ℚ :=
  linspace sMin sMax sRes k

/-- Mutable state of the grid filter: the current grid posterior and the
naive companion joint table `P_naive[category, i, j]` (initialized to
zeros). -/
structure GRWState (n : ℕ) where
  posterior : ℕ → ℚ
  pNaive : Fin 2 → ℕ → ℕ → ℚ

/-- The Bernoulli emission factor of the joint table: `1 - bernoulli_lookup[i]`
for category `0` and `bernoulli_lookup[i]` for category `1`. -/
def emission (bern : ℕ → ℚ) (k : Fin 2) (i : ℕ) : ℚ :=
  if k = 0 then 1 - bern i else bern i

/-- One entry of the joint table built by `update_posterior`:
`P[k, i, j] = emission(k, i) * normal_lookup[i, j] * posterior[j]`. -/
def joint (nrm : ℕ → ℕ → ℚ) (bern : ℕ → ℚ) (post : ℕ → ℚ) (k : Fin 2) (i j : ℕ) : ℚ :=
  emission bern k i * nrm i j * post j

/-- Everything one call of `SBL_GRW.update_posterior` produces: the new
state, the returned previous posterior (`posterior_lag`), and the
`posterior_naive` / `predictive` attributes set by the call. -/
structure GRWStepResult (n : ℕ) where
  state : GRWState n
  posteriorLag : ℕ → ℚ
  posteriorNaive : ℕ → ℚ
  predictive : ℚ

/-- `SBL_GRW.update_posterior(t, type)` with grid size `n = s_res`, lookup
tables `nrm` / `bern` and realized-category selector `cat` (the observation
for type `"SP"`, the repetition indicator for type `"AP"`).  The joint table
is rebuilt from the current posterior; the naive joint `P_naive` is written
**only in the `t == 0` branch** (as a copy of the full joint) and otherwise
left untouched.  Both the posterior and the naive marginal are then obtained
from the slice of the respective joint at the realized category `cat t`,
normalized by the slice total; `predictive` is the slice total over the
all-category total. -/
def updatePosterior (n : ℕ) (nrm : ℕ → ℕ → ℚ) (bern : ℕ → ℚ) (cat : ℕ → Fin 2)
    (t : ℕ) (s : GRWState n) : GRWStepResult n :=
  let jt := joint nrm bern s.posterior
  let pNaive' : Fin 2 → ℕ → ℕ → ℚ := if t = 0 then jt else s.pNaive
  let c := cat t
  let psumJ : ℕ → ℚ := fun i => ∑ j ∈ Finset.range n, jt c i j
  let psumJN : ℕ → ℚ := fun i => ∑ j ∈ Finset.range n, pNaive' c i j
  let psumIJ : ℚ := ∑ i ∈ Finset.range n, psumJ i
  let psumIJN : ℚ := ∑ i ∈ Finset.range n, psumJN i
  let psumKIJ : ℚ := ∑ k : Fin 2, ∑ i ∈ Finset.range n, ∑ j ∈ Finset.range n, jt k i j
  { state := { posterior := fun i => psumJ i / psumIJ, pNaive := pNaive' }
    posteriorLag := s.posterior
    posteriorNaive := fun i => psumJN i / psumIJN
    predictive := psumIJ / psumKIJ }

/-- The filter state at construction: uniform posterior
(`np.repeat(1/s_res, s_res)`) and all-zero naive joint. -/
def initState (n : ℕ) : GRWState n :=
  { posterior := fun _ => 1 / (n : ℚ), pNaive := fun _ _ _ => 0 }

/-- One row of the results table of `SBL_GRW.compute_surprisal`: the naive
marginal and previous posterior are the two arguments of the recorded
corrected surprisal `mutual_info_score(posterior_lag, posterior_naive)`; the
predictive surprisal recorded is `-log(predictive)`. -/
structure GRWRecord (n : ℕ) where
  t : ℕ
  posteriorLag : ℕ → ℚ
  posteriorNaive : ℕ → ℚ
  predictive : ℚ

/-- The recording loop of `compute_surprisal`: starting from a given state
at time `t`, perform `steps` successive updates, recording one row per
update. -/
def computeFrom (n : ℕ) (nrm : ℕ → ℕ → ℚ) (bern : ℕ → ℚ) (cat : ℕ → Fin 2) :
    ℕ → ℕ → GRWState n → List (GRWRecord n)
  | 0, _, _ => []
  | steps + 1, t, s =>
    let r := updatePosterior n nrm bern cat t s
    { t := t, posteriorLag := r.posteriorLag,
      posteriorNaive := r.posteriorNaive, predictive := r.predictive } ::
      computeFrom n nrm bern cat steps (t + 1) r.state

/-- `SBL_GRW.compute_surprisal(type)`: prime the filter with
`update_posterior(1, type)` (nothing recorded), then loop `t = 2 .. T-1`
recording one row per step.  The `t = 0` branch of `update_posterior` is
never executed here. -/
def computeSurprisal (n : ℕ) (nrm : ℕ → ℕ → ℚ) (bern : ℕ → ℚ) (cat : ℕ → Fin 2)
    (T : ℕ) : List (GRWRecord n) :=
  let r1 := updatePosterior n nrm bern cat 1 (initState n)
  computeFrom n nrm bern cat (T - 2) 2 r1.state

/-- Follows the spec's words (comparison definition, not code): the naive
marginal obtained "by the same recipe without conditioning on realized
category" — the joint table built from the given previous posterior, summed
over both categories and over `j`, normalized by its total mass. -/
def specNaiveMarginal (n : ℕ) (nrm : ℕ → ℕ → ℚ) (bern : ℕ → ℚ) (post : ℕ → ℚ)
    (i : ℕ) : ℚ :=
  (∑ k : Fin 2, ∑ j ∈ Finset.range n, joint nrm bern post k i j) /
    ∑ i' ∈ Finset.range n, ∑ k : Fin 2, ∑ j ∈ Finset.range n, joint nrm bern post k i' j

end SBLGRW

namespace SeqGen

/-- Python array read `Q[i]` (rows of the `seq_length × 2` state array as
`(regime, observation)` pairs) with numpy's negative index wraparound:
indices in `[0, L)` read directly, indices in `[-L, 0)` read `Q[i + L]`,
anything else raises `IndexError` (`none`). -/
def pyGet (Q : List (ℕ × ℕ)) (i : ℤ) : Option (ℕ × ℕ) :=
  if 0 ≤ i ∧ i < (Q.length : ℤ) then some (Q.getD i.toNat (0, 0))
  else if -(Q.length : ℤ) ≤ i ∧ i < 0 then some (Q.getD (i + Q.length).toNat (0, 0))
  else none

/-- The backward scan `while Q[counter,1]==2 or Q[counter-1,1]==2: counter -= 1`
from the order-2 branch of `get_sample_idx` (fuelled; `none` models
non-termination or an out-of-bounds read). -/
def catchWalkA (Q : List (ℕ × ℕ)) : ℕ → ℤ → Option ℤ
  | 0, _ => none
  | fuel + 1, c =>
    match pyGet Q c, pyGet Q (c - 1) with
    | some a, some b =>
      if a.2 = 2 ∨ b.2 = 2 then catchWalkA Q fuel (c - 1) else some c
    | _, _ => none

/-- The backward scan `while Q[counter,1]==2: counter -= 1` from the order-2
branch of `get_sample_idx`. -/
def catchWalkB (Q : List (ℕ × ℕ)) : ℕ → ℤ → Option ℤ
  | 0, _ => none
  | fuel + 1, c =>
    match pyGet Q c with
    | some a => if a.2 = 2 then catchWalkB Q fuel (c - 1) else some c
    | none => none

/-- `seq_gen.get_sample_idx(Q, t_1, t_2)` (fuelled).  `none` models a crash:
for `order = 1` the branch taken when `Q[t_1, 1] == 2` dereferences the
undefined name `s2` (a `NameError`), and any other observation value leaves
`idx` unbound; for `order = 2` a context is resolved by the four
observation-pair cases, with the catch-trial cases walking backwards and
recursing. -/
def getSampleIdx (Q : List (ℕ × ℕ)) (order : ℕ) : ℕ → ℤ → ℤ → Option ℕ
  | 0, _, _ => none
  | fuel + 1, t1, t2 =>
    if order = 1 then
      match pyGet Q t1 with
      | none => none
      | some a =>
        if a.2 = 0 then some 0
        else if a.2 = 1 then some 1
        else none
    else if order = 2 then
      match pyGet Q t1, pyGet Q t2 with
      | some a, some b =>
        if a.2 = 0 ∧ b.2 = 0 then some 0
        else if a.2 = 0 ∧ b.2 = 1 then some 1
        else if a.2 = 1 ∧ b.2 = 0 then some 2
        else if a.2 = 1 ∧ b.2 = 1 then some 3
        else if a.2 = 2 then
          match catchWalkA Q fuel (t1 - 1) with
          | some c => getSampleIdx Q order fuel c (c - 1)
          | none => none
        else if b.2 = 2 then
          match catchWalkB Q fuel (t2 - 1) with
          | some c => getSampleIdx Q order fuel t1 c
          | none => none
        else none
      | _, _ => none
    else none

/-- The regime-switch resampling loop of `seq_gen.sample`:
`while Q[t,1] == 3:` flip the active regime, resolve the context again and
redraw.  `draws dc regime idx` is the outcome index (in `{0,1,2,3}`) of the
`dc`-th call of `np.random.multinomial(1, transition_matrices[regime][idx]).argmax()`,
so the draw stream abstracts the randomness while regime and context row
still select it.  Returns `(observation, final regime, next draw counter)`. -/
def switchLoop (Q : List (ℕ × ℕ)) (order t : ℕ) (draws : ℕ → ℕ → ℕ → Fin 4) :
    ℕ → ℕ → ℕ → ℕ → Option (ℕ × ℕ × ℕ)
  | 0, _, _, _ => none
  | fuel + 1, actRegime, obs, dc =>
    if obs = 3 then
      let r := if actRegime = 0 then 1 else if actRegime = 1 then 0 else actRegime
      match getSampleIdx Q order (fuel + 1) ((t : ℤ) - 1) ((t : ℤ) - 2) with
      | none => none
      | some idx => switchLoop Q order t draws fuel r (draws dc r idx).val (dc + 1)
    else some (obs, actRegime, dc)

/-- One iteration of the main sampling loop of `seq_gen.sample` at time `t`:
only when the previous observation is not a catch trial (`Q[t-1,1] != 2`)
does the code resolve a context index and draw `Q[t,1]` from the active
regime's row; otherwise the drawing is skipped entirely and `Q[t,1]` keeps
its current (zero-initialized) value.  Either way the `while Q[t,1] == 3`
resampling loop then runs. -/
def sampleStep (Q : List (ℕ × ℕ)) (order : ℕ) (draws : ℕ → ℕ → ℕ → Fin 4)
    (t actRegime dc fuel : ℕ) : Option (ℕ × ℕ × ℕ) :=
  if (Q.getD (t - 1) (0, 0)).2 ≠ 2 then
    match getSampleIdx Q order fuel ((t : ℤ) - 1) ((t : ℤ) - 2) with
    | none => none
    | some idx =>
      switchLoop Q order t draws fuel actRegime (draws dc actRegime idx).val (dc + 1)
  else
    switchLoop Q order t draws fuel actRegime (Q.getD t (0, 0)).2 dc

/-- The main loop of `seq_gen.sample` over `t = order .. L-1`: run
`sampleStep` and store `(act_regime, observation)` at position `t`. -/
def sampleLoop (order : ℕ) (draws : ℕ → ℕ → ℕ → Fin 4) (fuel : ℕ) :
    ℕ → ℕ → List (ℕ × ℕ) → ℕ → ℕ → Option (List (ℕ × ℕ))
  | 0, _, Q, _, _ => some Q
  | steps + 1, t, Q, actRegime, dc =>
    match sampleStep Q order draws t actRegime dc fuel with
    | none => none
    | some (obs, r', dc') =>
      sampleLoop order draws fuel steps (t + 1) (Q.set t (r', obs)) r' dc'

/-- The seeded array at the start of `sample`: rows `0 .. order-1` hold the
regime seed and observation seed (one multinomial argmax each, shared by all
seed rows); every other row is still the `np.zeros` initialization. -/
def initQ (order L : ℕ) (regimeSeed : Fin 2) (obsSeed : Fin 3) : List (ℕ × ℕ) :=
  (List.range L).map (fun i => if i < order then (regimeSeed.val, obsSeed.val) else (0, 0))

/-- The final relabelling of `sample` producing the returned
`(t, hidden, observation)` rows: rows whose observation is `2` get hidden
regime `2` (`Q[Q[:,1]==2, 0] = 2`) and, after the float cast, observation
`0.5` (`Q[Q[:,1]==2, 1] = 0.5`); all other rows are cast unchanged. -/
def relabel (Q : List (ℕ × ℕ)) : List (ℚ × ℚ × ℚ) :=
  (List.range Q.length).map (fun t =>
    if (Q.getD t (0, 0)).2 = 2 then ((t : ℚ), 2, 1 / 2)
    else ((t : ℚ), ((Q.getD t (0, 0)).1 : ℚ), ((Q.getD t (0, 0)).2 : ℚ)))

/-- `seq_gen.sample(seq_length)` for `seq_length = L`: seed the first
`order` rows, read the initial active regime from `Q[1, 0]` (an `IndexError`
for `L < 2`), run the main loop over `t = order .. L-1`, then relabel catch
rows. -/
def sample (order L : ℕ) (regimeSeed : Fin 2) (obsSeed : Fin 3)
    (draws : ℕ → ℕ → ℕ → Fin 4) (fuel : ℕ) : Option (List (ℚ × ℚ × ℚ)) :=
  if L < 2 then none
  else
    match sampleLoop order draws fuel (L - order) order
        (initQ order L regimeSeed obsSeed)
        ((initQ order L regimeSeed obsSeed).getD 1 (0, 0)).1 0 with
    | none => none
    | some Q => some (relabel Q)

/-- A concrete draw stream for the counterexample runs: the first transition
draw yields outcome `2` (a catch trial), every later draw yields outcome
`1`. -/
def drawsCatchFirst : ℕ → ℕ → ℕ → Fin 4 :=
  fun dc _ _ => if dc = 0 then 2 else 1

end SeqGen

/-- Helper: the `stim_ind` loop succeeds when every sequence value is a
valid column index. -/
theorem stimLoop_ok_of_valid (m : ℕ) :
    ∀ l : List ℕ, (∀ x ∈ l, x < m) → SBLCatDir.stimLoop m l = .ok () := by
  intro l
  induction l with
  | nil => intro _; rfl
  | cons x xs ih =>
    intro h
    have hx : x < m := h x (List.mem_cons_self x xs)
    simp only [SBLCatDir.stimLoop, if_pos hx]
    exact ih fun y hy => h y (List.mem_cons_of_mem x hy)

/-- Helper: one body of the `transitions` loop raises when the table has
fewer than three columns. -/
theorem transWrite_err_of_lt_three (m : ℕ) (hm : m < 3) :
    SBLCatDir.transWrite m = .error .transIndex := by
  unfold SBLCatDir.transWrite
  split_ifs with h1 h2 h3
  · omega
  · rfl
  · rfl
  · rfl

/-- C10 counterexample: a sequence of length 1 with a single distinct value
(fewer than three) constructs successfully — `stim_ind` is in bounds and the
`transitions` loop body never runs — refuting both the universal failure
claim and "construction succeeds only with at least three distinct
values". -/
theorem init_succeeds_on_singleton :
    SBLCatDir.initSBLCatDir [0] "SP" = .ok 1 ∧ SBLCatDir.noObs [0] < 3 := by
  constructor
  · rfl
  · decide

/-- C10 amended: for every sequence of length at least 2 whose entries are
all valid column indices (each below the number of distinct values) and
which takes fewer than three distinct values, the constructor fails with an
out-of-bounds index in the `transitions` table, whatever the model-type
string; sequences of length at most 1 construct successfully despite having
fewer than three distinct values (see the counterexample). -/
theorem init_fails_in_transition_table (seq : List ℕ) (modelType : String)
    (hlen : 2 ≤ seq.length) (hvalid : ∀ x ∈ seq, x < SBLCatDir.noObs seq)
    (hm : SBLCatDir.noObs seq < 3) :
    SBLCatDir.initSBLCatDir seq modelType = .error .transIndex := by
  obtain ⟨n, hn⟩ : ∃ n, seq.length - 1 = n + 1 := ⟨seq.length - 2, by omega⟩
  unfold SBLCatDir.initSBLCatDir
  rw [stimLoop_ok_of_valid _ seq hvalid, hn]
  simp only [SBLCatDir.transLoop, transWrite_err_of_lt_three _ hm]

/-- Witness for `init_fails_in_transition_table` at the binary sequence
`[0, 1]`. -/
theorem init_fails_in_transition_table_witness :
    2 ≤ ([0, 1] : List ℕ).length ∧ (∀ x ∈ ([0, 1] : List ℕ), x < SBLCatDir.noObs [0, 1]) ∧
    SBLCatDir.noObs [0, 1] < 3 ∧
    SBLCatDir.initSBLCatDir [0, 1] "AP" = .error .transIndex :=
  ⟨by decide, by decide, by decide,
    init_fails_in_transition_table [0, 1] "AP" (by decide) (by decide) (by decide)⟩

/-- C6: for the `AP` model, `update_posterior` at `t = 0` does not raise: it
resets the Dirichlet state to the uniform prior `[1, 1]` and emits the
observable warning (the printed message, modelled by the Boolean flag), and
`compute_surprisal` still produces one record per requested timestep — in
particular the record at `t = 0` carries the reset state, the warning flag
and predictive probability `1/2`. -/
theorem ap_update_at_zero_resets_and_warns :
    (∀ (seq : List ℕ) (w : ℕ → ℚ),
      SBLCatDir.updateAP seq w 0 = (fun _ => 1, true)) ∧
    (∀ (seq : List ℕ) (w : ℕ → ℚ) (maxT : ℕ),
      (SBLCatDir.computeAP seq w maxT).length = maxT) ∧
    (∀ (seq : List ℕ) (w : ℕ → ℚ) (m : ℕ),
      (SBLCatDir.computeAP seq w (m + 1)).head? =
        some { t := 0, alphas := fun _ => 1, warned := true, psArg := 1 / 2 }) := by
  refine ⟨fun seq w => rfl, fun seq w maxT => by simp [SBLCatDir.computeAP], ?_⟩
  intro seq w m
  rw [SBLCatDir.computeAP, List.range_succ_eq_map]
  simp only [List.map_cons, List.head?_cons]
  have h0 : SBLCatDir.updateAP seq w 0 = (fun _ => 1, true) := rfl
  rw [h0]
  norm_num [SBLCatDir.ppPair]

/-- Helper: the discounted dot product of nonnegative entries is
nonnegative. -/
theorem dotW_nonneg (w : ℕ → ℚ) (t : ℕ) (v : ℕ → ℚ)
    (hw : ∀ d, 0 ≤ w d) (hv : ∀ k, 0 ≤ v k) : 0 ≤ SBLCatDir.dotW w t v :=
  Finset.sum_nonneg fun _k _ => mul_nonneg (hw _) (hv _)

/-- Helper: normalizing a vector of entries that are all at least `1` over a
nonempty index range yields a vector summing to exactly `1`. -/
theorem sum_div_total (m : ℕ) (f : ℕ → ℚ) (hm : 0 < m) (hf : ∀ i, 1 ≤ f i) :
    ∑ i ∈ Finset.range m, f i / (∑ k ∈ Finset.range m, f k) = 1 := by
  have hpos : 0 < ∑ k ∈ Finset.range m, f k := by
    have h1 : ((m : ℚ)) ≤ ∑ k ∈ Finset.range m, f k := by
      calc ((m : ℚ)) = ∑ _k ∈ Finset.range m, (1 : ℚ) := by
            simp
        _ ≤ ∑ k ∈ Finset.range m, f k := Finset.sum_le_sum fun i _ => hf i
    have : (0 : ℚ) < m := by exact_mod_cast hm
    linarith
  rw [← Finset.sum_div, div_self hpos.ne']

/-- Helper: each indicator entry of `stim_ind` is nonnegative. -/
theorem stimInd_nonneg (seq : List ℕ) (k i : ℕ) : 0 ≤ SBLCatDir.stimInd seq k i := by
  unfold SBLCatDir.stimInd
  split <;> norm_num

/-- Helper: the repetition indicator lies in `[0, 1]`. -/
theorem repetition_bounds (seq : List ℕ) (k : ℕ) :
    0 ≤ SBLCatDir.repetition seq k ∧ SBLCatDir.repetition seq k ≤ 1 := by
  unfold SBLCatDir.repetition
  split <;> norm_num

/-- Helper: each entry of the `transitions` indicator table is
nonnegative. -/
theorem transitions_nonneg (seq : List ℕ) (k i : ℕ) :
    0 ≤ SBLCatDir.transitions seq k i := by
  unfold SBLCatDir.transitions
  split <;> norm_num

/-- Helper: a nonempty sequence has at least one distinct value. -/
theorem noObs_pos (seq : List ℕ) (hne : seq ≠ []) : 0 < SBLCatDir.noObs seq := by
  rw [SBLCatDir.noObs, List.length_pos]
  simpa [List.dedup_eq_nil] using hne

/-- Helper: a product of two `{0,1}` indicators is the indicator of the
conjunction. -/
theorem indicator_mul (P Q : Prop) [Decidable P] [Decidable Q] :
    (if P then (1 : ℚ) else 0) * (if Q then (1 : ℚ) else 0) =
      if P ∧ Q then 1 else 0 := by
  by_cases hp : P <;> by_cases hq : Q <;> simp [hp, hq]

/-- C8: for every timestep of every variant, normalizing the Dirichlet state
produced by `update_posterior` sums to exactly `1` along the category axis
(for the `TP` matrix state, every slice at a fixed second index) — in
particular within the claimed `1e-9` tolerance. -/
theorem predictive_distribution_normalized (seq : List ℕ) (w : ℕ → ℚ) (t : ℕ)
    (hw : ∀ d, 0 ≤ w d) (hne : seq ≠ []) :
    (∑ i ∈ Finset.range (SBLCatDir.noObs seq),
      SBLCatDir.ppVec (SBLCatDir.noObs seq) (SBLCatDir.updateSP seq w t) i = 1) ∧
    (∑ i : Fin 2, SBLCatDir.ppPair (SBLCatDir.updateAP seq w t).1 i = 1) ∧
    (∀ j, ∑ i ∈ Finset.range (SBLCatDir.noObs seq),
      SBLCatDir.ppMat (SBLCatDir.noObs seq) (SBLCatDir.updateTP seq w t).1 i j = 1) := by
  have hm := noObs_pos seq hne
  refine ⟨?_, ?_, ?_⟩
  · exact sum_div_total _ _ hm fun i =>
      le_add_of_nonneg_right (dotW_nonneg w t _ hw fun k => stimInd_nonneg seq k i)
  · have key : ∀ a : Fin 2 → ℚ, 1 ≤ a 0 → 1 ≤ a 1 →
        ∑ i : Fin 2, SBLCatDir.ppPair a i = 1 := by
      intro a h0 h1
      have hs : a 0 + a 1 ≠ 0 := by linarith
      rw [Fin.sum_univ_two, SBLCatDir.ppPair, SBLCatDir.ppPair, div_add_div_same,
        div_self hs]
    by_cases ht : t = 0
    · subst ht
      exact key _ le_rfl le_rfl
    · rw [SBLCatDir.updateAP, if_neg ht]
      refine key _ ?_ ?_
      · simp only [Matrix.cons_val_zero]
        exact le_add_of_nonneg_right (dotW_nonneg w t _ hw
          fun k => (repetition_bounds seq k).1)
      · simp only [Matrix.cons_val_one, Matrix.head_cons]
        refine le_add_of_nonneg_right (dotW_nonneg w t _ hw fun k => ?_)
        have := (repetition_bounds seq k).2
        linarith
  · intro j
    by_cases ht : t = 0
    · subst ht
      rw [SBLCatDir.updateTP, if_pos rfl]
      exact sum_div_total _ _ hm fun i => le_rfl
    · rw [SBLCatDir.updateTP, if_neg ht]
      exact sum_div_total _ _ hm fun i =>
        le_add_of_nonneg_right (dotW_nonneg w t _ hw fun k =>
          mul_nonneg (stimInd_nonneg seq k j) (transitions_nonneg seq k i))

/-- Witness for `predictive_distribution_normalized` at `seq = [0,1,2]`,
uniform weights, `t = 1`. -/
theorem predictive_distribution_normalized_witness :
    (∀ d : ℕ, (0 : ℚ) ≤ (fun _ => (1 : ℚ)) d) ∧ ([0, 1, 2] : List ℕ) ≠ [] ∧
    ((∑ i ∈ Finset.range (SBLCatDir.noObs [0, 1, 2]),
      SBLCatDir.ppVec (SBLCatDir.noObs [0, 1, 2])
        (SBLCatDir.updateSP [0, 1, 2] (fun _ => 1) 1) i = 1) ∧
    (∑ i : Fin 2, SBLCatDir.ppPair (SBLCatDir.updateAP [0, 1, 2] (fun _ => 1) 1).1 i = 1) ∧
    (∀ j, ∑ i ∈ Finset.range (SBLCatDir.noObs [0, 1, 2]),
      SBLCatDir.ppMat (SBLCatDir.noObs [0, 1, 2])
        (SBLCatDir.updateTP [0, 1, 2] (fun _ => 1) 1).1 i j = 1)) :=
  ⟨fun _ => zero_le_one, by decide,
    predictive_distribution_normalized [0, 1, 2] (fun _ => 1) 1
      (fun _ => zero_le_one) (by decide)⟩

/-- Helper: with uniform weights the discounted dot product is the plain sum
over timesteps `0 .. t`. -/
theorem dotW_one (t : ℕ) (v : ℕ → ℚ) :
    SBLCatDir.dotW (fun _ => 1) t v = ∑ k ∈ Finset.range (t + 1), v k := by
  simp [SBLCatDir.dotW]

/-- Helper: the repeat count and the alternation count over `0 .. t`
partition the `t` timesteps `1 .. t`. -/
theorem repeat_add_alt (seq : List ℕ) (t : ℕ) :
    SBLCatDir.specRepeatCount seq t + SBLCatDir.specAltCount seq t = t := by
  unfold SBLCatDir.specRepeatCount SBLCatDir.specAltCount
  have hrw : ∀ p : ℕ → Prop, ∀ inst : DecidablePred p,
      (Finset.range (t + 1)).filter (fun k => k ≠ 0 ∧ p k) =
        ((Finset.range (t + 1)).filter (fun k => k ≠ 0)).filter p := by
    intro p inst
    rw [Finset.filter_filter]
  rw [hrw _ _, hrw _ _,
    Finset.filter_card_add_filter_neg_card_eq_card
      (p := fun k => seq.getD k 0 = seq.getD (k - 1) 0),
    Finset.filter_ne', Finset.card_erase_of_mem (by simp), Finset.card_range]
  omega

/-- C7 counterexample: for the `AP` variant with `tau = 0` at `seq = [0, 0]`
and `t = 1` the alternation entry of the Dirichlet state is `2`, while
`1` plus the plain running count of alternations over timesteps `0..1`
is `1`: the code tallies the degenerate timestep `0` as an alternation, so
the claimed exact equality fails. -/
theorem ap_alternation_entry_not_plain_count :
    (SBLCatDir.updateAP [0, 0] (fun _ => 1) 1).1 1 = 2 ∧
    1 + SBLCatDir.specAltCount [0, 0] 1 = 1 ∧ ((2 : ℚ) ≠ (1 : ℕ)) := by
  refine ⟨?_, by decide, by norm_num⟩
  rw [SBLCatDir.updateAP, if_neg one_ne_zero]
  simp only [Matrix.cons_val_one, Matrix.head_cons, dotW_one]
  rw [Finset.sum_range_succ, Finset.sum_range_one]
  norm_num [SBLCatDir.repetition]

/-- C7 amended: with `tau = 0` (uniform weights), after `update_posterior`
at time `t` the Dirichlet state is an exact integer count: `SP` entries
equal `1 +` the running count of the category, the `AP` repeat entry equals
`1 +` the running repeat count, the `AP` alternation entry equals `2 +` the
running alternation count for `t ≥ 1` (the code's `1 - repetition` table
tallies timestep `0` as an alternation), and `TP` entries equal `1 +` the
running from-to transition count for from-categories `i ≤ 2` (the
`transitions` table only marks previous categories `0`, `1`, `2`). -/
theorem tau_zero_state_is_count (seq : List ℕ) (t : ℕ) :
    (∀ i, SBLCatDir.updateSP seq (fun _ => 1) t i =
      1 + SBLCatDir.specStimCount seq i t) ∧
    ((SBLCatDir.updateAP seq (fun _ => 1) t).1 0 =
      1 + SBLCatDir.specRepeatCount seq t) ∧
    (1 ≤ t → (SBLCatDir.updateAP seq (fun _ => 1) t).1 1 =
      2 + SBLCatDir.specAltCount seq t) ∧
    (∀ i j, i ≤ 2 → (SBLCatDir.updateTP seq (fun _ => 1) t).1 i j =
      1 + SBLCatDir.specTransCount seq i j t) := by
  refine ⟨?_, ?_, ?_, ?_⟩
  · intro i
    rw [SBLCatDir.updateSP, dotW_one, SBLCatDir.specStimCount]
    rw [show (fun k => SBLCatDir.stimInd seq k i) =
      (fun k => if seq.getD k 0 = i then (1 : ℚ) else 0) from rfl]
    rw [Finset.sum_boole]
  · by_cases ht : t = 0
    · subst ht
      simp [SBLCatDir.updateAP, SBLCatDir.specRepeatCount, Finset.filter_eq_empty_iff,
        Finset.mem_range]
    · rw [SBLCatDir.updateAP, if_neg ht]
      simp only [Matrix.cons_val_zero, dotW_one]
      rw [show (SBLCatDir.repetition seq) =
        (fun k => if k ≠ 0 ∧ seq.getD k 0 = seq.getD (k - 1) 0 then (1 : ℚ) else 0)
          from rfl]
      rw [Finset.sum_boole, SBLCatDir.specRepeatCount]
  · intro ht
    rw [SBLCatDir.updateAP, if_neg (by omega : t ≠ 0)]
    simp only [Matrix.cons_val_one, Matrix.head_cons, dotW_one]
    have hsub : ∑ k ∈ Finset.range (t + 1), (1 - SBLCatDir.repetition seq k) =
        (t + 1 : ℚ) - SBLCatDir.specRepeatCount seq t := by
      rw [Finset.sum_sub_distrib]
      rw [show (SBLCatDir.repetition seq) =
        (fun k => if k ≠ 0 ∧ seq.getD k 0 = seq.getD (k - 1) 0 then (1 : ℚ) else 0)
          from rfl]
      rw [Finset.sum_boole, SBLCatDir.specRepeatCount]
      simp
    rw [hsub]
    have hpart := repeat_add_alt seq t
    have : (SBLCatDir.specRepeatCount seq t : ℚ) =
        (t : ℚ) - SBLCatDir.specAltCount seq t := by
      have := congrArg (fun n : ℕ => (n : ℚ)) hpart
      push_cast at this
      linarith
    rw [this]
    ring
  · intro i j hi
    by_cases ht : t = 0
    · subst ht
      simp [SBLCatDir.updateTP, SBLCatDir.specTransCount, Finset.filter_eq_empty_iff,
        Finset.mem_range]
    · rw [SBLCatDir.updateTP, if_neg ht]
      simp only [dotW_one]
      have hcong : ∀ k ∈ Finset.range (t + 1),
          SBLCatDir.stimInd seq k j * SBLCatDir.transitions seq k i =
            if k ≠ 0 ∧ seq.getD (k - 1) 0 = i ∧ seq.getD k 0 = j then (1 : ℚ) else 0 := by
        intro k _
        rw [SBLCatDir.stimInd, SBLCatDir.transitions, indicator_mul]
        refine if_congr ⟨fun h => ⟨h.2.1, h.2.2.2, h.1⟩, fun h => ⟨h.2.2, h.1, hi, h.2.1⟩⟩
          rfl rfl
      rw [Finset.sum_congr rfl hcong, Finset.sum_boole, SBLCatDir.specTransCount]

/-- Witness for `tau_zero_state_is_count` at `seq = [0, 1, 0]`, `t = 2`,
with the `1 ≤ t` and `i ≤ 2` hypotheses discharged at `t = 2`, `i = 0`,
`j = 1`. -/
theorem tau_zero_state_is_count_witness :
    SBLCatDir.updateSP [0, 1, 0] (fun _ => 1) 2 0 =
      1 + SBLCatDir.specStimCount [0, 1, 0] 0 2 ∧
    (SBLCatDir.updateAP [0, 1, 0] (fun _ => 1) 2).1 0 =
      1 + SBLCatDir.specRepeatCount [0, 1, 0] 2 ∧
    (SBLCatDir.updateAP [0, 1, 0] (fun _ => 1) 2).1 1 =
      2 + SBLCatDir.specAltCount [0, 1, 0] 2 ∧
    (SBLCatDir.updateTP [0, 1, 0] (fun _ => 1) 2).1 0 1 =
      1 + SBLCatDir.specTransCount [0, 1, 0] 0 1 2 :=
  ⟨(tau_zero_state_is_count [0, 1, 0] 2).1 0,
   (tau_zero_state_is_count [0, 1, 0] 2).2.1,
   (tau_zero_state_is_count [0, 1, 0] 2).2.2.1 (by norm_num),
   (tau_zero_state_is_count [0, 1, 0] 2).2.2.2 0 1 (by norm_num)⟩

/-- C3: for the `AP` variant, `compute_surprisal` records
`-log(posterior_predictive(alphas)[ind])` with `ind = int(repetition[t])`,
which on a repeat selects index `1` — the entry where `update_posterior`
accumulates *alternation* weight — instead of the repeat entry.  Concretely
at `seq = [0,0,0]`, `tau = 0`, `t = 2`: the realized outcome is a repeat
(`ind = 1`), the state is `[3, 2]`, the probability passed to the logarithm
is `2/5`, while the predictive probability of the realized repeat outcome
(index `0`, the entry that counts repeats) is `3/5`. -/
theorem ap_surprisal_scores_wrong_entry :
    SBLCatDir.apInd [0, 0, 0] 2 = 1 ∧
    (SBLCatDir.updateAP [0, 0, 0] (fun _ => 1) 2).1 = ![3, 2] ∧
    SBLCatDir.ppPair (SBLCatDir.updateAP [0, 0, 0] (fun _ => 1) 2).1
      (SBLCatDir.apInd [0, 0, 0] 2) = 2 / 5 ∧
    SBLCatDir.ppPair (SBLCatDir.updateAP [0, 0, 0] (fun _ => 1) 2).1 0 = 3 / 5 ∧
    (2 / 5 : ℚ) ≠ 3 / 5 := by
  have hr0 : SBLCatDir.repetition [0, 0, 0] 0 = 0 := by
    norm_num [SBLCatDir.repetition]
  have hr1 : SBLCatDir.repetition [0, 0, 0] 1 = 1 := by
    norm_num [SBLCatDir.repetition]
  have hr2 : SBLCatDir.repetition [0, 0, 0] 2 = 1 := by
    norm_num [SBLCatDir.repetition]
  have halphas : (SBLCatDir.updateAP [0, 0, 0] (fun _ => 1) 2).1 = ![3, 2] := by
    rw [SBLCatDir.updateAP, if_neg (by norm_num : (2 : ℕ) ≠ 0)]
    funext i
    fin_cases i
    · show 1 + SBLCatDir.dotW (fun _ => 1) 2 (SBLCatDir.repetition [0, 0, 0]) = 3
      rw [dotW_one, Finset.sum_range_succ, Finset.sum_range_succ, Finset.sum_range_one,
        hr0, hr1, hr2]
      norm_num
    · show 1 + SBLCatDir.dotW (fun _ => 1) 2
        (fun k => 1 - SBLCatDir.repetition [0, 0, 0] k) = 2
      rw [dotW_one, Finset.sum_range_succ, Finset.sum_range_succ, Finset.sum_range_one,
        hr0, hr1, hr2]
      norm_num
  have hind : SBLCatDir.apInd [0, 0, 0] 2 = 1 := by decide
  rw [halphas, hind]
  refine ⟨rfl, rfl, ?_, ?_, by norm_num⟩ <;>
    norm_num [SBLCatDir.ppPair]

/-- C1: the claim fails on the code — when the immediately preceding
observation is a catch trial, `seq_gen.sample` never resolves a context nor
draws from a transition row at time `t`: the guard `if Q[t-1,1] != 2` simply
skips the drawing, so the observation keeps its zero-initialized value `0`,
no random draw is consumed and the draw stream is never consulted (first
conjunct).  Moreover the order-1 catch branch of `get_sample_idx`, which the
claim says performs the backward walk, dereferences the undefined name `s2`
and therefore crashes whenever it is entered (second conjunct). -/
theorem sample_skips_draw_after_catch :
    (∀ (Q : List (ℕ × ℕ)) (order : ℕ) (draws : ℕ → ℕ → ℕ → Fin 4)
      (t actRegime dc fuel : ℕ),
      (Q.getD (t - 1) (0, 0)).2 = 2 → (Q.getD t (0, 0)).2 = 0 →
      SeqGen.sampleStep Q order draws t actRegime dc (fuel + 1) =
        some (0, actRegime, dc)) ∧
    (∀ (Q : List (ℕ × ℕ)) (fuel : ℕ) (t1 t2 : ℤ) (a : ℕ × ℕ),
      SeqGen.pyGet Q t1 = some a → a.2 = 2 →
      SeqGen.getSampleIdx Q 1 (fuel + 1) t1 t2 = none) := by
  constructor
  · intro Q order draws t actRegime dc fuel h1 h2
    rw [SeqGen.sampleStep, if_neg (not_not.mpr h1), h2, SeqGen.switchLoop]
    norm_num
  · intro Q fuel t1 t2 a hget ha
    rw [SeqGen.getSampleIdx, if_pos rfl, hget]
    simp [ha]

/-- Witness for `sample_skips_draw_after_catch` on a concrete state whose
row `1` is a catch trial: the step at `t = 2` forces observation `0` without
consuming a draw, and the order-1 context lookup at the catch row crashes. -/
theorem sample_skips_draw_after_catch_witness :
    ((([(0, 0), (0, 2), (0, 0), (0, 0)] : List (ℕ × ℕ)).getD (2 - 1) (0, 0)).2 = 2) ∧
    ((([(0, 0), (0, 2), (0, 0), (0, 0)] : List (ℕ × ℕ)).getD 2 (0, 0)).2 = 0) ∧
    SeqGen.sampleStep [(0, 0), (0, 2), (0, 0), (0, 0)] 1 SeqGen.drawsCatchFirst 2 0 1 10 =
      some (0, 0, 1) ∧
    SeqGen.pyGet [(0, 0), (0, 2), (0, 0), (0, 0)] 1 = some (0, 2) ∧
    SeqGen.getSampleIdx [(0, 0), (0, 2), (0, 0), (0, 0)] 1 10 1 0 = none :=
  ⟨by decide, by decide,
    sample_skips_draw_after_catch.1 [(0, 0), (0, 2), (0, 0), (0, 0)] 1
      SeqGen.drawsCatchFirst 2 0 1 9 (by decide) (by decide),
    by decide,
    sample_skips_draw_after_catch.2 [(0, 0), (0, 2), (0, 0), (0, 0)] 9 1 0 (0, 2)
      (by decide) rfl⟩

/-- Helper: reading a row of a state list whose observations are all at most
`2` yields an observation at most `2` (the default row is `(0, 0)`). -/
theorem getD_snd_le :
    ∀ (Q : List (ℕ × ℕ)) (t : ℕ), (∀ p ∈ Q, p.2 ≤ 2) → (Q.getD t (0, 0)).2 ≤ 2 := by
  intro Q
  induction Q with
  | nil => intro t _; simp [List.getD]
  | cons q Qs ih =>
    intro t h
    cases t with
    | zero => simpa using h q (List.mem_cons_self q Qs)
    | succ n =>
      rw [List.getD_cons_succ]
      exact ih n fun p hp => h p (List.mem_cons_of_mem q hp)

/-- Helper: the regime-switch resampling loop only returns an observation in
`{0, 1, 2}` provided the incoming candidate is a valid multinomial outcome
(at most `3`); redraws are `Fin 4` values, hence also at most `3`. -/
theorem switchLoop_obs_le (Q : List (ℕ × ℕ)) (order t : ℕ)
    (draws : ℕ → ℕ → ℕ → Fin 4) :
    ∀ (fuel actRegime obs dc o r d : ℕ),
      SeqGen.switchLoop Q order t draws fuel actRegime obs dc = some (o, r, d) →
      obs ≤ 3 → o ≤ 2 := by
  intro fuel
  induction fuel with
  | zero =>
    intro actRegime obs dc o r d h _
    simp [SeqGen.switchLoop] at h
  | succ n ih =>
    intro actRegime obs dc o r d h hobs
    rw [SeqGen.switchLoop] at h
    by_cases h3 : obs = 3
    · rw [if_pos h3] at h
      cases hidx : SeqGen.getSampleIdx Q order (n + 1) ((t : ℤ) - 1) ((t : ℤ) - 2) with
      | none => rw [hidx] at h; cases h
      | some idx =>
        rw [hidx] at h
        refine ih _ _ _ _ _ _ h ?_
        have := (draws dc (if actRegime = 0 then 1
          else if actRegime = 1 then 0 else actRegime) idx).isLt
        omega
    · rw [if_neg h3] at h
      obtain ⟨rfl, rfl, rfl⟩ : obs = o ∧ actRegime = r ∧ dc = d := by
        injection h with h'
        injection h' with ha hb
        injection hb with hc hd
        exact ⟨ha, hc, hd⟩
      omega

/-- Helper: one main-loop step writes an observation at most `2` when the
current state's observations are all at most `2`. -/
theorem sampleStep_obs_le (Q : List (ℕ × ℕ)) (order : ℕ)
    (draws : ℕ → ℕ → ℕ → Fin 4) (t actRegime dc fuel o r d : ℕ)
    (hQ : ∀ p ∈ Q, p.2 ≤ 2)
    (h : SeqGen.sampleStep Q order draws t actRegime dc fuel = some (o, r, d)) :
    o ≤ 2 := by
  rw [SeqGen.sampleStep] at h
  by_cases hc : (Q.getD (t - 1) (0, 0)).2 ≠ 2
  · rw [if_pos hc] at h
    cases hidx : SeqGen.getSampleIdx Q order fuel ((t : ℤ) - 1) ((t : ℤ) - 2) with
    | none => rw [hidx] at h; cases h
    | some idx =>
      rw [hidx] at h
      refine switchLoop_obs_le Q order t draws _ _ _ _ _ _ _ h ?_
      have := (draws dc actRegime idx).isLt
      omega
  · rw [if_neg hc] at h
    refine switchLoop_obs_le Q order t draws _ _ _ _ _ _ _ h ?_
    have := getD_snd_le Q t hQ
    omega

/-- Helper: the main sampling loop preserves "all observations at most
`2`". -/
theorem sampleLoop_preserves (order : ℕ) (draws : ℕ → ℕ → ℕ → Fin 4) (fuel : ℕ) :
    ∀ (steps t : ℕ) (Q : List (ℕ × ℕ)) (actRegime dc : ℕ) (Qout : List (ℕ × ℕ)),
      (∀ p ∈ Q, p.2 ≤ 2) →
      SeqGen.sampleLoop order draws fuel steps t Q actRegime dc = some Qout →
      ∀ p ∈ Qout, p.2 ≤ 2 := by
  intro steps
  induction steps with
  | zero =>
    intro t Q actRegime dc Qout hQ h
    rw [SeqGen.sampleLoop] at h
    injection h with h'
    exact h' ▸ hQ
  | succ n ih =>
    intro t Q actRegime dc Qout hQ h
    rw [SeqGen.sampleLoop] at h
    cases hstep : SeqGen.sampleStep Q order draws t actRegime dc fuel with
    | none => rw [hstep] at h; cases h
    | some x =>
      obtain ⟨obs, r', dc'⟩ := x
      rw [hstep] at h
      refine ih _ _ _ _ _ ?_ h
      intro p hp
      rcases List.mem_or_eq_of_mem_set hp with hmem | rfl
      · exact hQ p hmem
      · exact sampleStep_obs_le Q order draws t actRegime dc fuel _ _ _ hQ hstep

/-- Helper: the seeded array has all observations at most `2` (the
observation seed is a three-outcome multinomial argmax). -/
theorem initQ_obs_le (order L : ℕ) (regimeSeed : Fin 2) (obsSeed : Fin 3) :
    ∀ p ∈ SeqGen.initQ order L regimeSeed obsSeed, p.2 ≤ 2 := by
  intro p hp
  obtain ⟨i, _, rfl⟩ := List.mem_map.mp hp
  split
  · have := obsSeed.isLt
    simpa using by omega
  · simp

/-- C4 counterexample: a concrete order-1 run whose draws produce a catch
trial at `t = 1` returns the row `(1, 2, 1/2)` — the hidden regime is `2`
as claimed, but the observation in the returned array is `0.5`, not
category `2` (the internal category `2` is rewritten to `0.5` by the final
relabelling of `sample`). -/
theorem catch_row_observation_is_half :
    SeqGen.sample 1 4 0 0 SeqGen.drawsCatchFirst 10 =
      some [(0, 0, 0), (1, 2, 1 / 2), (2, 0, 0), (3, 0, 1)] ∧
    ((1 : ℚ) / 2 ≠ 2) := by
  constructor
  · have h : SeqGen.sample 1 4 0 0 SeqGen.drawsCatchFirst 10 =
        some (SeqGen.relabel [(0, 0), (0, 2), (0, 0), (0, 1)]) := rfl
    rw [h]
    norm_num [SeqGen.relabel, List.range_succ]
  · norm_num

/-- C4 amended: in every returned `(t, hidden, observation)` array, each
catch-trial row carries hidden regime `2` and observation `0.5` (internally
category `2` before the final relabelling), and every other row carries an
observation in `{0, 1}`. -/
theorem sample_rows_catch_marked (order L : ℕ) (regimeSeed : Fin 2)
    (obsSeed : Fin 3) (draws : ℕ → ℕ → ℕ → Fin 4) (fuel : ℕ)
    (s : List (ℚ × ℚ × ℚ))
    (hs : SeqGen.sample order L regimeSeed obsSeed draws fuel = some s) :
    ∀ row ∈ s, (row.2.1 = 2 ∧ row.2.2 = 1 / 2) ∨ row.2.2 = 0 ∨ row.2.2 = 1 := by
  rw [SeqGen.sample] at hs
  by_cases hL : L < 2
  · rw [if_pos hL] at hs
    cases hs
  · rw [if_neg hL] at hs
    cases hQ : SeqGen.sampleLoop order draws fuel (L - order) order
        (SeqGen.initQ order L regimeSeed obsSeed)
        ((SeqGen.initQ order L regimeSeed obsSeed).getD 1 (0, 0)).1 0 with
    | none => rw [hQ] at hs; cases hs
    | some Q =>
      rw [hQ] at hs
      injection hs with hs'
      subst hs'
      have hinv : ∀ p ∈ Q, p.2 ≤ 2 :=
        sampleLoop_preserves order draws fuel (L - order) order _ _ 0 Q
          (initQ_obs_le order L regimeSeed obsSeed) hQ
      intro row hrow
      obtain ⟨t, _, rfl⟩ := List.mem_map.mp hrow
      by_cases h2 : (Q.getD t (0, 0)).2 = 2
      · rw [if_pos h2]
        exact .inl ⟨rfl, rfl⟩
      · rw [if_neg h2]
        right
        have hle := getD_snd_le Q t hinv
        interval_cases h : (Q.getD t (0, 0)).2
        · left; simp
        · right; simp
        · exact absurd rfl (h ▸ h2)

/-- Witness for `sample_rows_catch_marked` on the concrete catch-trial
run. -/
theorem sample_rows_catch_marked_witness :
    SeqGen.sample 1 4 0 0 SeqGen.drawsCatchFirst 10 =
      some (SeqGen.relabel [(0, 0), (0, 2), (0, 0), (0, 1)]) ∧
    ∀ row ∈ SeqGen.relabel [(0, 0), (0, 2), (0, 0), (0, 1)],
      (row.2.1 = 2 ∧ row.2.2 = 1 / 2) ∨ row.2.2 = 0 ∨ row.2.2 = 1 :=
  ⟨rfl, sample_rows_catch_marked 1 4 0 0 SeqGen.drawsCatchFirst 10 _ rfl⟩

/-- C5: the lookup tables of `SBL_GRW.update_posterior` are not built on the
configured grid.  Even at the default configuration
`(s_min, s_max, s_res) = (-5, 5, 70)`, where the hardcoded
`linspace(-5, 5, 70)` coincides with `self.s_space`, the Bernoulli emission
lookup indexed at grid point `i` evaluates the logistic curve at
`i_ax[i]` — and `np.repeat` lays out `i_ax` so that its first `70` entries
all equal the *first* grid point `-5`: at `i = 69` the code uses
`logistic(-5)` where the claim requires `logistic(s_69) = logistic(5)`. -/
theorem emission_lookup_ignores_configured_grid :
    (∀ logistic : ℚ → ℚ,
      SBLGRW.bernoulliLookup logistic 69 = logistic (SBLGRW.iAx 69)) ∧
    SBLGRW.iAx 69 = -5 ∧
    SBLGRW.sSpace (-5) 5 70 69 = 5 ∧
    SBLGRW.iAx 69 ≠ SBLGRW.sSpace (-5) 5 70 69 := by
  have h1 : SBLGRW.iAx 69 = -5 := by
    norm_num [SBLGRW.iAx, SBLGRW.linspace]
  have h2 : SBLGRW.sSpace (-5) 5 70 69 = 5 := by
    norm_num [SBLGRW.sSpace, SBLGRW.linspace]
  exact ⟨fun _ => rfl, h1, h2, by rw [h1, h2]; norm_num⟩

/-- C2 counterexample: a concrete grid-filter run (grid size `2`, constant
lookups, three timesteps, one recorded step).  The recorded naive marginal
is the zero vector (its joint table was never written, so the code divides
zero mass by zero — `NaN` in floating point, `0` in exact arithmetic),
whereas the marginal that the claim's recipe — the same joint table built
from the previous posterior, *without* conditioning on the realized
category — produces at the same step is `1/2` per grid point. -/
theorem naive_marginal_stale_counterexample :
    ((SBLGRW.computeSurprisal 2 (fun _ _ => 1) (fun _ => 1 / 2) (fun _ => 0) 3).map
      (fun r => r.posteriorNaive 0)) = [0] ∧
    ((SBLGRW.computeSurprisal 2 (fun _ _ => 1) (fun _ => 1 / 2) (fun _ => 0) 3).map
      (fun r => SBLGRW.specNaiveMarginal 2 (fun _ _ => 1) (fun _ => 1 / 2)
        r.posteriorLag 0)) = [1 / 2] ∧
    (0 : ℚ) ≠ 1 / 2 := by
  refine ⟨?_, ?_, by norm_num⟩
  · simp [SBLGRW.computeSurprisal, SBLGRW.computeFrom, SBLGRW.updatePosterior,
      SBLGRW.initState, SBLGRW.joint, SBLGRW.emission]
  · simp [SBLGRW.computeSurprisal, SBLGRW.computeFrom, SBLGRW.updatePosterior,
      SBLGRW.initState, SBLGRW.joint, SBLGRW.emission, SBLGRW.specNaiveMarginal,
      Fin.sum_univ_two, Finset.sum_range_succ]
    norm_num

/-- Helper: the recording loop started at any time `t + 1 ≥ 1` with an
all-zero naive joint records only zero naive marginals (the `t == 0` branch
that would write the naive joint is never taken). -/
theorem computeFrom_naive_zero (n : ℕ) (nrm : ℕ → ℕ → ℚ) (bern : ℕ → ℚ)
    (cat : ℕ → Fin 2) :
    ∀ (steps t : ℕ) (s : SBLGRW.GRWState n), s.pNaive = (fun _ _ _ => 0) →
      (SBLGRW.computeFrom n nrm bern cat steps (t + 1) s).map
        (fun r => r.posteriorNaive) =
      (SBLGRW.computeFrom n nrm bern cat steps (t + 1) s).map (fun _ _ => 0) := by
  intro steps
  induction steps with
  | zero => intro t s _; rfl
  | succ m ih =>
    intro t s h
    rw [SBLGRW.computeFrom, List.map_cons, List.map_cons]
    refine congrArg₂ _ ?_ (ih (t + 1) _ (by simp [SBLGRW.updatePosterior, h]))
    funext i
    simp [SBLGRW.updatePosterior, h]

/-- C2 amended: the naive companion joint is written only by the `t == 0`
branch of `update_posterior` (where it is a copy of the full joint built
from the current posterior); every update at `t ≥ 1` leaves it untouched,
and the naive marginal is obtained by slicing it at the *realized* category,
exactly like the posterior.  Since `compute_surprisal` only ever calls
`update_posterior` with `t ≥ 1`, the naive joint keeps its all-zero
initialization there and every recorded naive marginal — the second operand
of the recorded corrected-surprisal score — is the degenerate zero-mass
vector (`NaN` in floating point), not an up-to-date unconditioned
marginal. -/
theorem naive_joint_never_recomputed :
    (∀ (n : ℕ) (nrm : ℕ → ℕ → ℚ) (bern : ℕ → ℚ) (cat : ℕ → Fin 2) (t : ℕ)
      (s : SBLGRW.GRWState n),
      (SBLGRW.updatePosterior n nrm bern cat (t + 1) s).state.pNaive = s.pNaive) ∧
    (∀ (n : ℕ) (nrm : ℕ → ℕ → ℚ) (bern : ℕ → ℚ) (cat : ℕ → Fin 2)
      (s : SBLGRW.GRWState n),
      (SBLGRW.updatePosterior n nrm bern cat 0 s).state.pNaive =
        SBLGRW.joint nrm bern s.posterior) ∧
    (∀ (n : ℕ) (nrm : ℕ → ℕ → ℚ) (bern : ℕ → ℚ) (cat : ℕ → Fin 2) (T : ℕ),
      (SBLGRW.computeSurprisal n nrm bern cat T).map (fun r => r.posteriorNaive) =
        (SBLGRW.computeSurprisal n nrm bern cat T).map (fun _ _ => 0)) := by
  refine ⟨?_, ?_, ?_⟩
  · intro n nrm bern cat t s
    simp [SBLGRW.updatePosterior]
  · intro n nrm bern cat s
    simp [SBLGRW.updatePosterior]
  · intro n nrm bern cat T
    exact computeFrom_naive_zero n nrm bern cat (T - 2) 1 _
      (by simp [SBLGRW.updatePosterior, SBLGRW.initState])

/-- C9: every row of both per-regime transition matrices sums to exactly `1`
(hence within `1e-9`), and the construction-time check rejects (raises) on
any pair of matrices in which some row sum differs from `1` — in particular
whenever a row sum is off by more than the `1e-9` tolerance. -/
theorem construct_transitions_row_stochastic :
    (∀ (pObsChange : ℕ → ℚ) (pCatch pRegimeChange : ℚ) (rows i : ℕ),
      SeqGen.rowSum (SeqGen.B0row pObsChange pCatch pRegimeChange i) = 1 ∧
      SeqGen.rowSum (SeqGen.B1row pObsChange pCatch pRegimeChange rows i) = 1 ∧
      |SeqGen.rowSum (SeqGen.B0row pObsChange pCatch pRegimeChange i) - 1| ≤ 1 / 1000000000) ∧
    (∀ (B0 B1 : ℕ → Fin 4 → ℚ) (rows i : ℕ), i < rows →
      1 / 1000000000 < |SeqGen.rowSum (B0 i) - 1| →
      SeqGen.rowStochasticCheck B0 B1 rows = false) := by
  constructor
  · intro pObsChange pCatch pRegimeChange rows i
    refine ⟨?_, ?_, ?_⟩
    · simp [SeqGen.rowSum, SeqGen.B0row]
      ring
    · simp [SeqGen.rowSum, SeqGen.B1row, SeqGen.B0row]
      ring
    · have h : SeqGen.rowSum (SeqGen.B0row pObsChange pCatch pRegimeChange i) = 1 := by
        simp [SeqGen.rowSum, SeqGen.B0row]
        ring
      rw [h]
      norm_num
  · intro B0 B1 rows i hi hoff
    have hne : SeqGen.rowSum (B0 i) ≠ 1 := by
      intro h
      rw [h] at hoff
      norm_num at hoff
    simp only [SeqGen.rowStochasticCheck, decide_eq_false_iff_not]
    intro hall
    exact hne ((hall i hi).1)

/-- Witness for `construct_transitions_row_stochastic`: the check rejects a
concrete non-stochastic matrix (all-zero rows) at row `0 < 1`. -/
theorem construct_transitions_row_stochastic_witness :
    (0 : ℕ) < 1 ∧ (1 : ℚ) / 1000000000 < |SeqGen.rowSum ((fun _ _ => 0 : ℕ → Fin 4 → ℚ) 0) - 1| ∧
    SeqGen.rowStochasticCheck (fun _ _ => 0) (fun _ _ => 0) 1 = false := by
  refine ⟨by norm_num, by simp [SeqGen.rowSum]; norm_num, ?_⟩
  exact construct_transitions_row_stochastic.2 (fun _ _ => 0) (fun _ _ => 0) 1 0
    (by norm_num) (by simp [SeqGen.rowSum]; norm_num)
